import Mathlib

/-!
# Gamepad: device lifecycle and event normalisation (`gamepad_osx.cc`)

A shallow embedding of `gamepad::SystemImpl` (macOS backend) and the properties
of its element scan, input routing, axis normalisation and detach sweep.

Modelling conventions

* `float` values are the rationals they denote; every arithmetic step of the
  source is followed by `f32`, rounding to the nearest binary32 value (ties to
  even).  The only non-finite intermediate of `HandleAxisEvent` is the quotient
  by a zero range, which is resolved explicitly the way `std::min`/`std::max`
  resolve it.
* `std::vector` is `List`; `v[i]` past the end is the fault `Fault.out_of_range`.
* A `std::function` handler slot is a `Bool` (registered or empty); a handler call
  is recorded as a `Notification` in the order of the calls.  `Device*` arguments
  are recorded as the position of the device in `devices_` together with the
  `Device` contents at the time of the call.  The `timestamp` argument is the
  constant `0.0` in every call and is not recorded.
* `IOHIDDeviceRef` is a `Nat`, `0` being `nullptr`; `HidDeviceInput` does not test
  the handle of an input value against `nullptr`.
* Integers are unbounded: the logical range of a HID element and the value of an
  input are 32-bit quantities, far from the ends of `CFIndex`.
-/

namespace Gamepad

/-! ## binary32 arithmetic -/

/-- Round a rational to the nearest integer, ties to the even neighbour. -/
def roundHalfEven (m : ℚ) : ℤ :=
  let f := ⌊m⌋
  let r := m - f
  if r < 1 / 2 then f
  else if 1 / 2 < r then f + 1
  else if f % 2 = 0 then f
  else f + 1

/-- Round a rational to the nearest binary32 value (24 significant bits, ties to
even).  Exact for `2^-126 ≤ |x| < 2^128`, which covers every quantity that
`HandleAxisEvent` forms from 64-bit integer inputs. -/
def f32 (x : ℚ) : ℚ :=
  if x = 0 then 0
  else
    let e := Int.log 2 |x|
    let ulp : ℚ := 2 ^ (e - 23)
    (if x < 0 then -1 else 1) * (roundHalfEven (|x| / ulp) : ℚ) * ulp

/-! ## Data model (`gamepad.h`, `gamepad_osx.h`) -/

/-- The record `gamepad::Device` of `gamepad.h`. -/
structure Device where
  device_id : Nat := 0
  vendor_id : Int := 0
  product_id : Int := 0
  description : String := ""
  axes : List ℚ := []
  buttons : List Bool := []
  deriving DecidableEq

/-- Modelled from the spec: `HidButtonInfo` is declared in `gamepad_osx.h`, which is
not part of the sources; the fields are the ones `gamepad_osx.cc` uses. -/
structure HidButtonInfo where
  button_id : Nat
  cookie : Nat
  deriving DecidableEq

/-- Modelled from the spec: `HidAxisInfo` is declared in `gamepad_osx.h`, which is
not part of the sources; the fields are the ones `gamepad_osx.cc` uses.  `minimum`
and `maximum` hold the integers returned by `IOHIDElementGetLogicalMin/Max`;
`last_value` starts at `0.0` (§8 of the spec: the first event reports previous
`0.0`). -/
structure HidAxisInfo where
  axis_id : Nat
  cookie : Nat
  minimum : Int
  maximum : Int
  last_value : ℚ := 0
  deriving DecidableEq

/-- Modelled from the spec: `HidDevice` is declared in `gamepad_osx.h`, which is not
part of the sources; the fields are the ones `gamepad_osx.cc` uses, `disconnected`
starting at `false`. -/
structure HidDevice where
  device_ref : Nat
  device : Device := {}
  button_map : List HidButtonInfo := []
  axis_map : List HidAxisInfo := []
  disconnected : Bool := false
  deriving DecidableEq

/-- The state of `SystemImpl`: the registry and the five handler slots. -/
structure SystemImpl where
  devices_ : List HidDevice := []
  attached_handler_ : Bool := false
  detached_handler_ : Bool := false
  button_up_handler_ : Bool := false
  button_down_handler_ : Bool := false
  axis_move_handler_ : Bool := false
  deriving DecidableEq

/-- One handler invocation. `dev` is the position in `devices_` of the device whose
`Device` is passed, `d` its contents at the time of the call. -/
inductive Notification where
  | attached (dev : Nat) (d : Device)
  | detached (dev : Nat) (d : Device)
  | button_down (dev : Nat) (d : Device) (button_id : Nat)
  | button_up (dev : Nat) (d : Device) (button_id : Nat)
  | axis_move (dev : Nat) (d : Device) (axis_id : Nat) (value last_value : ℚ)
  deriving DecidableEq

/-- The position in `devices_` of the device a notification refers to. -/
def Notification.dev : Notification → Nat
  | .attached i _ => i
  | .detached i _ => i
  | .button_down i _ _ => i
  | .button_up i _ _ => i
  | .axis_move i _ _ _ _ => i

/-- Undefined behaviour made explicit: an index past the end of a vector. -/
inductive Fault where
  | out_of_range
  deriving DecidableEq

/-- The element types of IOKit (`IOHIDElementType`). -/
inductive IOHIDElementType where
  | Input_Misc
  | Input_Button
  | Input_Axis
  | Input_ScanCodes
  | Output
  | Feature
  | Collection
  deriving DecidableEq

/-- What the element scan reads from an `IOHIDElementRef`. -/
structure IOHIDElement where
  type : IOHIDElementType
  cookie : Nat
  logicalMin : Int
  logicalMax : Int
  deriving DecidableEq

/-- What `HidDeviceAttached` reads from an `IOHIDDeviceRef`: the handle, the
vendor-id property (`none` when missing or not a number), the product name
(`none` when missing or not a string) and the elements. -/
structure HidDeviceProperties where
  device : Nat
  vendorRef : Option Int
  nameRef : Option String
  elements : List IOHIDElement

/-- What `HidDeviceInput` reads from an `IOHIDValueRef`: the device of its element
(`IOHIDElementGetDevice`), the cookie of its element, and its integer value as
assigned to `int int_value`. -/
structure HidValue where
  device_ref : Nat
  cookie : Nat
  int_value : Int
  deriving DecidableEq

/-! ## `HandleAxisEvent` -/

/-- The `value` computed by `SystemImpl::HandleAxisEvent` (lines 272-275). -/
def axisValue (axis_info : HidAxisInfo) (int_value : Int) : ℚ :=
  let float_value : ℚ := f32 int_value
  let range : ℚ := f32 ((axis_info.maximum - axis_info.minimum : Int) : ℚ)
  let num : ℚ := f32 (float_value - f32 axis_info.minimum)
  if range = 0 then
    -- `num / 0.0f` is `+inf`, `-inf` or NaN; `std::min(1.0f, NaN)` is `1.0f`
    if num < 0 then -1 else 1
  else
    let norm : ℚ := f32 (num / range)
    max (-1) (min 1 (f32 (f32 (2 * norm) - 1)))

/-- The method `SystemImpl::HandleAxisEvent` (lines 269-284), for the device at
position `dev` of `devices_`. -/
def HandleAxisEvent (axis_move_handler_ : Bool) (dev : Nat) (device : HidDevice)
    (axis_id : Nat) (int_value : Int) : Except Fault (HidDevice × List Notification) :=
  match device.axis_map[axis_id]? with
  | none => .error .out_of_range
  | some axis_info =>
    let value := axisValue axis_info int_value
    if axis_info.last_value ≠ value then
      if axis_id < device.device.axes.length then
        let d : Device := { device.device with axes := device.device.axes.set axis_id value }
        .ok ({ device with
                device := d
                axis_map := device.axis_map.set axis_id { axis_info with last_value := value } },
             if axis_move_handler_ then
               [.axis_move dev d axis_id value axis_info.last_value]
             else [])
      else .error .out_of_range
    else .ok (device, [])

/-- Modelled from the spec: `System::HandleButtonEvent` is defined in `gamepad.cc`,
which is not part of the sources.  §4.2: any nonzero raw value is pressed, zero is
released, and the button-down/up handler fires only on a transition of the stored
boolean. -/
def HandleButtonEvent (button_down_handler_ button_up_handler_ : Bool) (dev : Nat)
    (device : Device) (button_id : Nat) (value : Int) :
    Except Fault (Device × List Notification) :=
  match device.buttons[button_id]? with
  | none => .error .out_of_range
  | some old =>
    let pressed : Bool := decide (value ≠ 0)
    if old ≠ pressed then
      let d : Device := { device with buttons := device.buttons.set button_id pressed }
      .ok (d,
        if pressed then
          (if button_down_handler_ then [.button_down dev d button_id] else [])
        else
          (if button_up_handler_ then [.button_up dev d button_id] else []))
    else .ok (device, [])

/-! ## `HidDeviceAttached` -/

/-- The call `vector::resize(n, val)`. -/
def resize {α : Type} (l : List α) (n : Nat) (val : α) : List α :=
  l.take n ++ List.replicate (n - l.length) val

/-- One iteration of the element scan of `HidDeviceAttached` (lines 184-201). -/
def scanElement (hid_device : HidDevice) (element : IOHIDElement) : HidDevice :=
  if element.type = .Input_Button then
    { hid_device with
      button_map := hid_device.button_map ++
        [{ button_id := hid_device.button_map.length, cookie := element.cookie }] }
  else if element.type = .Input_Misc ∨ element.type = .Input_Axis then
    if hid_device.axis_map.length > 8 then hid_device
    else
      { hid_device with
        axis_map := hid_device.axis_map ++
          [{ axis_id := hid_device.axis_map.length
             cookie := element.cookie
             minimum := element.logicalMin
             maximum := element.logicalMax }] }
  else hid_device

/-- The device record `HidDeviceAttached` builds (lines 173-207): the fresh record,
the element scan, then the two `resize` calls. -/
def buildHidDevice (device : Nat) (vendor_id product_id : Int) (device_name : String)
    (elements : List IOHIDElement) : HidDevice :=
  let hid_device : HidDevice :=
    { device_ref := device
      device := { device_id := 0, vendor_id := vendor_id, product_id := product_id,
                  description := device_name } }
  let hid_device := elements.foldl scanElement hid_device
  let hid_device : HidDevice :=
    { hid_device with
      device := { hid_device.device with
        buttons := resize hid_device.device.buttons hid_device.button_map.length false } }
  { hid_device with
    device := { hid_device.device with
      axes := resize hid_device.device.axes hid_device.axis_map.length 0 } }

/-- The method `SystemImpl::HidDeviceAttached` (lines 147-218).  Both ids are read
from the vendor-id key, as in the source. -/
def HidDeviceAttached (s : SystemImpl) (p : HidDeviceProperties) :
    SystemImpl × List Notification :=
  match p.vendorRef with
  | none => (s, [])
  | some vendor =>
    let device_name := match p.nameRef with
      | none => "<Unknown>"
      | some n => n
    let hid_device := buildHidDevice p.device vendor vendor device_name p.elements
    ({ s with devices_ := s.devices_ ++ [hid_device] },
     if s.attached_handler_ then
       [.attached s.devices_.length hid_device.device]
     else [])

/-! ## `HidCleanup`, `HidDeviceDetached` -/

/-- The method `SystemImpl::HidCleanup` (lines 99-106). -/
def HidCleanup (device : HidDevice) : HidDevice :=
  let device := { device with disconnected := true }
  if device.device_ref ≠ 0 then { device with device_ref := 0 } else device

/-- The loop of `HidDeviceDetached`: clean up the first device whose handle is
`device`. -/
def detachFirst (device : Nat) : List HidDevice → List HidDevice
  | [] => []
  | hid_device :: rest =>
    if hid_device.device_ref = device then HidCleanup hid_device :: rest
    else hid_device :: detachFirst device rest

/-- The method `SystemImpl::HidDeviceDetached` (lines 220-228). -/
def HidDeviceDetached (s : SystemImpl) (device : Nat) : SystemImpl :=
  { s with devices_ := detachFirst device s.devices_ }

/-! ## `HidDeviceInput` -/

/-- The device lookup of `HidDeviceInput` (lines 238-244): the position of the first
device whose handle is `device_ref`, counting from `i`. -/
def findDevice (device_ref : Nat) : List HidDevice → Nat → Option Nat
  | [], _ => none
  | device :: rest, i =>
    if device.device_ref = device_ref then some i else findDevice device_ref rest (i + 1)

/-- The button cookie loop of `HidDeviceInput` (lines 252-257): the first `i` with
`button_map[i].cookie == cookie`, counting from `i`. -/
def findButton (cookie : Nat) : List HidButtonInfo → Nat → Option Nat
  | [], _ => none
  | b :: rest, i => if b.cookie = cookie then some i else findButton cookie rest (i + 1)

/-- The axis cookie loop of `HidDeviceInput` (lines 260-265) with `n` iterations
left, at index `i`: it reads `axis_map[i]` while `i < button_map.size()`. -/
def findAxis (axis_map : List HidAxisInfo) (cookie : Nat) : Nat → Nat → Except Fault (Option Nat)
  | 0, _ => .ok none
  | n + 1, i =>
    match axis_map[i]? with
    | none => .error .out_of_range
    | some axis_info =>
      if axis_info.cookie = cookie then .ok (some i) else findAxis axis_map cookie n (i + 1)

/-- The method `SystemImpl::HidDeviceInput` (lines 230-266); `value = none` is the
null `IOHIDValueRef`. -/
def HidDeviceInput (s : SystemImpl) (value : Option HidValue) :
    Except Fault (SystemImpl × List Notification) :=
  match value with
  | none => .ok (s, [])
  | some v =>
    match findDevice v.device_ref s.devices_ 0 with
    | none => .ok (s, [])
    | some dev =>
      match s.devices_[dev]? with
      | none => .ok (s, [])
      | some hid_device =>
        match findButton v.cookie hid_device.button_map 0 with
        | some i =>
          match HandleButtonEvent s.button_down_handler_ s.button_up_handler_ dev
              hid_device.device i v.int_value with
          | .error e => .error e
          | .ok (d, out) =>
            .ok ({ s with devices_ := s.devices_.set dev { hid_device with device := d } }, out)
        | none =>
          match findAxis hid_device.axis_map v.cookie hid_device.button_map.length 0 with
          | .error e => .error e
          | .ok none => .ok (s, [])
          | .ok (some i) =>
            match HandleAxisEvent s.axis_move_handler_ dev hid_device i v.int_value with
            | .error e => .error e
            | .ok (hd, out) => .ok ({ s with devices_ := s.devices_.set dev hd }, out)

/-! ## `HidReadInputs` -/

/-- The detach loop of `HidReadInputs` (lines 117-126) with `fuel` iterations left:
`i` is the iterator position in `devices`, `out` the handler calls made so far. -/
def sweepLoop (detached_handler_ : Bool) :
    Nat → Nat → List HidDevice → List Notification → List HidDevice × List Notification
  | 0, _, devices, out => (devices, out)
  | fuel + 1, i, devices, out =>
    match devices[i]? with
    | none => (devices, out)
    | some hid_device =>
      if hid_device.disconnected then
        sweepLoop detached_handler_ fuel i (devices.eraseIdx i)
          (if detached_handler_ then out ++ [.detached i hid_device.device] else out)
      else sweepLoop detached_handler_ fuel (i + 1) devices out

/-- The detach loop of `HidReadInputs` run from `devices_.begin()`.  Every iteration
either erases a device or advances the iterator, so `devices_.size()` iterations
reach `devices_.end()`. -/
def sweep (s : SystemImpl) : SystemImpl × List Notification :=
  let r := sweepLoop s.detached_handler_ s.devices_.length 0 s.devices_ []
  ({ s with devices_ := r.1 }, r.2)

/-- A callback the run loop delivers while `HidReadInputs` pumps it. -/
inductive Callback where
  | HidAttached (p : HidDeviceProperties)
  | HidDetached (device : Nat)
  | HidInput (value : Option HidValue)

/-- Run one callback (lines 129-145). -/
def runCallback (s : SystemImpl) : Callback → Except Fault (SystemImpl × List Notification)
  | .HidAttached p => .ok (HidDeviceAttached s p)
  | .HidDetached device => .ok (HidDeviceDetached s device, [])
  | .HidInput value => HidDeviceInput s value

/-- The run loop of `HidReadInputs` (lines 111-114) delivering `pending` in order. -/
def pump (s : SystemImpl) : List Callback → Except Fault (SystemImpl × List Notification)
  | [] => .ok (s, [])
  | c :: rest =>
    match runCallback s c with
    | .error e => .error e
    | .ok (s1, out1) =>
      match pump s1 rest with
      | .error e => .error e
      | .ok (s2, out2) => .ok (s2, out1 ++ out2)

/-- The method `SystemImpl::HidReadInputs` (lines 108-127): pump the run loop, then
sweep the disconnected devices. -/
def HidReadInputs (s : SystemImpl) (pending : List Callback) :
    Except Fault (SystemImpl × List Notification) :=
  match pump s pending with
  | .error e => .error e
  | .ok (s1, out1) =>
    let r := sweep s1
    .ok (r.1, out1 ++ r.2)

/-- The states `SystemImpl` can be in: it starts with no device, and changes by
handler registration, by the callbacks, and by the sweep. -/
inductive Reachable : SystemImpl → Prop where
  | init (s : SystemImpl) : s.devices_ = [] → Reachable s
  | register (s s1 : SystemImpl) : Reachable s → s1.devices_ = s.devices_ → Reachable s1
  | callback (s s1 : SystemImpl) (c : Callback) (out : List Notification) :
      Reachable s → runCallback s c = .ok (s1, out) → Reachable s1
  | sweep (s : SystemImpl) : Reachable s → Reachable (sweep s).1

/-! ## Vocabulary of the statements -/

/-- The test of line 187: a button-type element. -/
def IOHIDElement.isButton (e : IOHIDElement) : Bool :=
  decide (e.type = .Input_Button)

/-- The test of lines 192-193: an axis-type (axis or misc) element. -/
def IOHIDElement.isAxis (e : IOHIDElement) : Bool :=
  decide (e.type = .Input_Misc ∨ e.type = .Input_Axis)

/-- The button binding of lines 188-190 for an element and its logical id. -/
def buttonBinding (p : Nat × IOHIDElement) : HidButtonInfo :=
  { button_id := p.1, cookie := p.2.cookie }

/-- The axis binding of lines 195-199 for an element and its logical id. -/
def axisBinding (p : Nat × IOHIDElement) : HidAxisInfo :=
  { axis_id := p.1, cookie := p.2.cookie, minimum := p.2.logicalMin,
    maximum := p.2.logicalMax }

/-- The four sizes of a device record: `axes`, `buttons`, `axis_map`, `button_map`. -/
def HidDevice.sizes (d : HidDevice) : Nat × Nat × Nat × Nat :=
  (d.device.axes.length, d.device.buttons.length, d.axis_map.length, d.button_map.length)

/-- The snapshot vectors are as long as the binding tables, and logical ids are
positions. -/
def HidDevice.Consistent (d : HidDevice) : Prop :=
  d.device.axes.length = d.axis_map.length ∧
  d.device.buttons.length = d.button_map.length ∧
  (∀ (i : Nat) (a : HidAxisInfo), d.axis_map[i]? = some a → a.axis_id = i) ∧
  (∀ (i : Nat) (b : HidButtonInfo), d.button_map[i]? = some b → b.button_id = i)

/-- A disconnected device has had its handle cleared by `HidCleanup`. -/
def HidDevice.Closed (d : HidDevice) : Prop :=
  d.disconnected = true → d.device_ref = 0

/-! ## Example data -/

/-- An axis binding with the range `[0, 255]`, as created at attach. -/
def padAxis : HidAxisInfo :=
  { axis_id := 0, cookie := 3, minimum := 0, maximum := 255 }

/-- The binding `padAxis` after the raw sample `0`. -/
def padAxisLow : HidAxisInfo := { padAxis with last_value := -1 }

/-- A device with the single axis `padAxis`, after the raw sample `0`. -/
def padLow : HidDevice :=
  { device_ref := 7, device := { axes := [-1] }, axis_map := [padAxisLow] }

/-- A system with all five handlers registered and no device. -/
def allHandlers : SystemImpl :=
  { attached_handler_ := true, detached_handler_ := true, button_up_handler_ := true,
    button_down_handler_ := true, axis_move_handler_ := true }

/-- The elements of a pad with two buttons and one axis of range `[0, 255]`. -/
def padElements : List IOHIDElement :=
  [⟨.Input_Button, 1, 0, 1⟩, ⟨.Input_Button, 2, 0, 1⟩, ⟨.Input_Axis, 3, 0, 255⟩]

/-- The pad with two buttons and one axis, on the handle `h`. -/
def padProperties (h : Nat) : HidDeviceProperties :=
  { device := h, vendorRef := some 1118, nameRef := none, elements := padElements }

/-- The pad attached on handle `7`. -/
def padSystem : SystemImpl := (HidDeviceAttached allHandlers (padProperties 7)).1

/-- A stick with one axis of range `[0, 255]` (cookie `3`) and no button, on handle `7`. -/
def stickSystem : SystemImpl :=
  (HidDeviceAttached allHandlers
    { device := 7, vendorRef := some 1118, nameRef := none
      elements := [⟨.Input_Axis, 3, 0, 255⟩] }).1

/-- The device record of `stickSystem`. -/
def stickDevice : HidDevice :=
  { device_ref := 7
    device := { vendor_id := 1118, product_id := 1118, description := "<Unknown>", axes := [0] }
    axis_map := [padAxis] }

/-- Two pads attached on handles `7` and `8`, the first one then detached. -/
def twoPads : SystemImpl :=
  HidDeviceDetached (HidDeviceAttached padSystem (padProperties 8)).1 7

/-- The record of the detached pad in `twoPads`. -/
def detachedPad : HidDevice :=
  { device_ref := 0
    device := { vendor_id := 1118, product_id := 1118, description := "<Unknown>", axes := [0],
                buttons := [false, false] }
    button_map := [⟨0, 1⟩, ⟨1, 2⟩]
    axis_map := [padAxis]
    disconnected := true }

/-- Nine axis elements with the cookies `0 .. 8`. -/
def nineAxes : List IOHIDElement :=
  (List.range 9).map fun c => ⟨.Input_Axis, c, 0, 255⟩

/-- The record of the second pad of `twoPads` after button `0` went down. -/
def pressedPad : HidDevice :=
  { device_ref := 8
    device := { vendor_id := 1118, product_id := 1118, description := "<Unknown>", axes := [0],
                buttons := [true, false] }
    button_map := [⟨0, 1⟩, ⟨1, 2⟩]
    axis_map := [padAxis] }

theorem roundHalfEven_intCast (z : ℤ) : roundHalfEven (z : ℚ) = z := by
  simp [roundHalfEven]

theorem f32_zero : f32 0 = 0 := by simp [f32]

/-- How `f32` evaluates once the binade of `x` is known. -/
theorem f32_eval (x : ℚ) (e : ℤ) (h1 : (2 : ℚ) ^ e ≤ |x|) (h2 : |x| < (2 : ℚ) ^ (e + 1)) :
    f32 x = (if x < 0 then -1 else 1) * (roundHalfEven (|x| / 2 ^ (e - 23)) : ℚ) * 2 ^ (e - 23) := by
  have hpos : 0 < |x| := lt_of_lt_of_le (by positivity) h1
  have hx : x ≠ 0 := abs_pos.mp hpos
  have h3 : e ≤ Int.log 2 |x| := (Int.zpow_le_iff_le_log (by norm_num) hpos).mp (by exact_mod_cast h1)
  have h4 : Int.log 2 |x| < e + 1 := (Int.lt_zpow_iff_log_lt (by norm_num) hpos).mp (by exact_mod_cast h2)
  have h5 : Int.log 2 |x| = e := by omega
  simp only [f32, hx, if_false, h5]

theorem f32_of_mantissa (x : ℚ) (e z : ℤ) (h1 : (2 : ℚ) ^ e ≤ |x|) (h2 : |x| < (2 : ℚ) ^ (e + 1))
    (hz : |x| / 2 ^ (e - 23) = (z : ℚ)) : f32 x = x := by
  rw [f32_eval x e h1 h2, hz, roundHalfEven_intCast, ← hz]
  have hp : (2 : ℚ) ^ (e - 23) ≠ 0 := by positivity
  rw [mul_assoc, div_mul_cancel₀ _ hp]
  split_ifs with h
  · rw [abs_of_neg h]; ring
  · rw [abs_of_nonneg (not_lt.mp h)]; ring

theorem f32_one : f32 1 = 1 :=
  f32_of_mantissa 1 0 (2 ^ 23) (by norm_num) (by norm_num) (by norm_num)

theorem f32_neg_one : f32 (-1) = -1 :=
  f32_of_mantissa (-1) 0 (2 ^ 23) (by norm_num) (by norm_num) (by norm_num)

theorem f32_two : f32 2 = 2 :=
  f32_of_mantissa 2 1 (2 ^ 23) (by norm_num) (by norm_num) (by norm_num)


theorem floor_le_roundHalfEven (m : ℚ) : ⌊m⌋ ≤ roundHalfEven m := by
  unfold roundHalfEven
  simp only
  split_ifs <;> omega

theorem f32_eq_zero_iff (x : ℚ) : f32 x = 0 ↔ x = 0 := by
  constructor
  · intro h
    by_contra hx
    have hpos : 0 < |x| := abs_pos.mpr hx
    have h1 : (2 : ℚ) ^ (Int.log 2 |x|) ≤ |x| := by
      have := Int.zpow_log_le_self (b := 2) (by norm_num) hpos
      exact_mod_cast this
    have h2 : |x| < (2 : ℚ) ^ (Int.log 2 |x| + 1) := by
      have := Int.lt_zpow_succ_log_self (b := 2) (by norm_num) |x|
      exact_mod_cast this
    rw [f32_eval x _ h1 h2] at h
    have hu : (0 : ℚ) < 2 ^ (Int.log 2 |x| - 23) := by positivity
    have hm : (2 : ℚ) ^ (23 : ℤ) ≤ |x| / 2 ^ (Int.log 2 |x| - 23) := by
      rw [le_div_iff₀ hu, ← zpow_add₀ (by norm_num : (2 : ℚ) ≠ 0)]
      simpa using h1
    have hf : (1 : ℤ) ≤ ⌊|x| / 2 ^ (Int.log 2 |x| - 23)⌋ := by
      apply Int.le_floor.mpr
      refine le_trans ?_ hm
      norm_num
    have hr := floor_le_roundHalfEven (|x| / 2 ^ (Int.log 2 |x| - 23))
    have hr1 : (1 : ℚ) ≤ (roundHalfEven (|x| / 2 ^ (Int.log 2 |x| - 23)) : ℚ) := by
      exact_mod_cast le_trans hf hr
    have hs : (if x < 0 then (-1 : ℚ) else 1) ≠ 0 := by split_ifs <;> norm_num
    have : (roundHalfEven (|x| / 2 ^ (Int.log 2 |x| - 23)) : ℚ) ≠ 0 := by linarith
    exact absurd h (mul_ne_zero (mul_ne_zero hs this) hu.ne')
  · rintro rfl
    exact f32_zero

/-- Every integer of magnitude at most `2^24` is a binary32 value. -/
theorem f32_intCast (n : ℤ) (h : |n| ≤ 2 ^ 24) : f32 (n : ℚ) = n := by
  by_cases hn : n = 0
  · subst hn; simpa using f32_zero
  have ha : n.natAbs ≠ 0 := by simpa using hn
  have hle : n.natAbs ≤ 2 ^ 24 := by
    have : (n.natAbs : ℤ) ≤ 2 ^ 24 := by rw [Int.natCast_natAbs]; exact h
    exact_mod_cast this
  have habs : |(n : ℚ)| = (n.natAbs : ℚ) := by
    rw [Nat.cast_natAbs, Int.cast_abs]
  have hlo : 2 ^ Nat.log 2 n.natAbs ≤ n.natAbs := Nat.pow_log_le_self 2 ha
  have hhi : n.natAbs < 2 ^ (Nat.log 2 n.natAbs + 1) :=
    Nat.lt_pow_succ_log_self (by norm_num) _
  have hk : Nat.log 2 n.natAbs ≤ 24 := by
    by_contra hc
    have : 2 ^ 25 ≤ 2 ^ Nat.log 2 n.natAbs := Nat.pow_le_pow_right (by norm_num) (by omega)
    omega
  have h1 : (2 : ℚ) ^ ((Nat.log 2 n.natAbs : ℕ) : ℤ) ≤ |(n : ℚ)| := by
    rw [habs, zpow_natCast]; exact_mod_cast hlo
  have h2 : |(n : ℚ)| < (2 : ℚ) ^ (((Nat.log 2 n.natAbs : ℕ) : ℤ) + 1) := by
    rw [habs]
    have : (((Nat.log 2 n.natAbs : ℕ) : ℤ) + 1) = ((Nat.log 2 n.natAbs + 1 : ℕ) : ℤ) := by push_cast; ring
    rw [this, zpow_natCast]; exact_mod_cast hhi
  rcases Nat.lt_or_ge (Nat.log 2 n.natAbs) 24 with hlt | hge
  · refine f32_of_mantissa _ _ ((n.natAbs * 2 ^ (23 - Nat.log 2 n.natAbs) : ℕ) : ℤ) h1 h2 ?_
    rw [habs, zpow_sub₀ (by norm_num : (2 : ℚ) ≠ 0), zpow_natCast]
    have h23 : (2 : ℚ) ^ (23 : ℤ) = 2 ^ (23 - Nat.log 2 n.natAbs) * 2 ^ Nat.log 2 n.natAbs := by
      rw [← pow_add, Nat.sub_add_cancel (by omega)]; norm_num
    rw [h23, Int.cast_natCast, Nat.cast_mul, Nat.cast_pow, Nat.cast_ofNat]
    field_simp
    ring
  · have hk24 : Nat.log 2 n.natAbs = 24 := by omega
    have hn24 : n.natAbs = 2 ^ 24 := by
      rw [hk24] at hlo; omega
    refine f32_of_mantissa _ _ (2 ^ 23) h1 h2 ?_
    rw [habs, hk24, hn24]
    norm_num

/-- A tie: `2^24 + 1` lies midway between two binary32 values and rounds to the even one. -/
theorem f32_tie : f32 16777217 = 16777216 := by
  rw [f32_eval 16777217 24 (by norm_num) (by norm_num)]
  have hm : |(16777217 : ℚ)| / 2 ^ ((24 : ℤ) - 23) = 16777217 / 2 := by norm_num
  have hf : ⌊(16777217 / 2 : ℚ)⌋ = 8388608 := by
    rw [Int.floor_eq_iff]; constructor <;> norm_num
  rw [hm]
  have : roundHalfEven (16777217 / 2 : ℚ) = 8388608 := by
    simp only [roundHalfEven, hf]
    norm_num
  rw [this]
  norm_num

/-! ## The axis normaliser -/

theorem axisValue_mem (axis_info : HidAxisInfo) (int_value : Int) :
    -1 ≤ axisValue axis_info int_value ∧ axisValue axis_info int_value ≤ 1 := by
  unfold axisValue
  simp only
  split_ifs
  · constructor <;> norm_num
  · constructor <;> norm_num
  · exact ⟨le_max_left _ _, max_le (by norm_num) (min_le_left _ _)⟩

theorem f32_range_ne_zero (axis_info : HidAxisInfo) (h : axis_info.minimum < axis_info.maximum) :
    f32 ((axis_info.maximum - axis_info.minimum : Int) : ℚ) ≠ 0 := by
  intro h0
  have := (f32_eq_zero_iff _).mp h0
  have h1 : axis_info.maximum - axis_info.minimum = 0 := by exact_mod_cast this
  omega

theorem axisValue_minimum (axis_info : HidAxisInfo)
    (h : axis_info.minimum < axis_info.maximum) :
    axisValue axis_info axis_info.minimum = -1 := by
  unfold axisValue
  simp only [sub_self, f32_zero, if_neg (f32_range_ne_zero axis_info h), zero_div, mul_zero,
    zero_sub, f32_neg_one]
  norm_num

theorem axisValue_maximum (axis_info : HidAxisInfo)
    (h : axis_info.minimum < axis_info.maximum)
    (hmin : f32 (axis_info.minimum : ℚ) = axis_info.minimum)
    (hmax : f32 (axis_info.maximum : ℚ) = axis_info.maximum) :
    axisValue axis_info axis_info.maximum = 1 := by
  have hr := f32_range_ne_zero axis_info h
  unfold axisValue
  simp only [hmin, hmax, if_neg hr]
  rw [← Int.cast_sub, div_self hr, f32_one, mul_one, f32_two]
  norm_num [f32_one]

theorem axisValue_last_value (axis_info : HidAxisInfo) (x : ℚ) (int_value : Int) :
    axisValue { axis_info with last_value := x } int_value = axisValue axis_info int_value := rfl

/-- What `HandleAxisEvent` returns for an axis id inside both vectors. -/
theorem HandleAxisEvent_eq (h : Bool) (dev : Nat) (device : HidDevice) (axis_id : Nat)
    (int_value : Int) (axis_info : HidAxisInfo)
    (hinfo : device.axis_map[axis_id]? = some axis_info)
    (hlen : axis_id < device.device.axes.length) :
    HandleAxisEvent h dev device axis_id int_value =
      if axis_info.last_value ≠ axisValue axis_info int_value then
        .ok ({ device with
                device := { device.device with
                  axes := device.device.axes.set axis_id (axisValue axis_info int_value) }
                axis_map := device.axis_map.set axis_id
                  { axis_info with last_value := axisValue axis_info int_value } },
             if h then
               [.axis_move dev
                 { device.device with
                   axes := device.device.axes.set axis_id (axisValue axis_info int_value) }
                 axis_id (axisValue axis_info int_value) axis_info.last_value]
             else [])
      else .ok (device, []) := by
  simp only [HandleAxisEvent, hinfo, hlen, if_true]

/-! ## The element scan -/

theorem resize_nil {α : Type} (n : Nat) (val : α) : resize [] n val = List.replicate n val := by
  simp [resize]

/-- The element scan, started from any record: buttons get the next ids in order,
axis-type elements too while at most 8 axis bindings exist. -/
theorem foldl_scanElement (elements : List IOHIDElement) (hd : HidDevice) :
    elements.foldl scanElement hd =
      { hd with
        button_map := hd.button_map ++
          (List.enumFrom hd.button_map.length (elements.filter IOHIDElement.isButton)).map
            buttonBinding
        axis_map := hd.axis_map ++
          (List.enumFrom hd.axis_map.length
            ((elements.filter IOHIDElement.isAxis).take (9 - hd.axis_map.length))).map
            axisBinding } := by
  induction elements generalizing hd with
  | nil => simp
  | cons el rest ih =>
    rw [List.foldl_cons, ih]
    by_cases hb : el.type = .Input_Button
    · have h1 : el.isButton = true := by simp [IOHIDElement.isButton, hb]
      have h2 : el.isAxis = false := by simp [IOHIDElement.isAxis, hb]
      simp [scanElement, hb, h1, h2, List.filter_cons, List.enumFrom_cons, buttonBinding]
    · have h1 : el.isButton = false := by simp [IOHIDElement.isButton, hb]
      by_cases ha : el.type = .Input_Misc ∨ el.type = .Input_Axis
      · have h2 : el.isAxis = true := by simp [IOHIDElement.isAxis, ha]
        by_cases hc : hd.axis_map.length > 8
        · have h0 : 9 - hd.axis_map.length = 0 := by omega
          simp [scanElement, hb, ha, hc, h1, h2, List.filter_cons, h0]
        · have h0 : 9 - hd.axis_map.length = (9 - (hd.axis_map.length + 1)) + 1 := by omega
          simp only [scanElement, hb, ha, hc, h1, h2, List.filter_cons, if_true, if_false]
          rw [h0, List.take_succ_cons]
          simp [List.enumFrom_cons, axisBinding]
      · have h2 : el.isAxis = false := by simp [IOHIDElement.isAxis, ha]
        simp [scanElement, hb, ha, h1, h2, List.filter_cons]

/-- The record `HidDeviceAttached` registers, in closed form. -/
theorem buildHidDevice_eq (device : Nat) (vendor_id product_id : Int) (device_name : String)
    (elements : List IOHIDElement) :
    buildHidDevice device vendor_id product_id device_name elements =
      { device_ref := device
        device :=
          { device_id := 0, vendor_id := vendor_id, product_id := product_id,
            description := device_name
            axes := List.replicate (min 9 (elements.countP IOHIDElement.isAxis)) 0
            buttons := List.replicate (elements.countP IOHIDElement.isButton) false }
        button_map := (List.enumFrom 0 (elements.filter IOHIDElement.isButton)).map buttonBinding
        axis_map :=
          (List.enumFrom 0 ((elements.filter IOHIDElement.isAxis).take 9)).map axisBinding
        disconnected := false } := by
  simp [buildHidDevice, foldl_scanElement, resize_nil, List.enumFrom_length,
    List.countP_eq_length_filter]

theorem buildHidDevice_consistent (device : Nat) (vendor_id product_id : Int)
    (device_name : String) (elements : List IOHIDElement) :
    (buildHidDevice device vendor_id product_id device_name elements).Consistent := by
  rw [buildHidDevice_eq]
  refine ⟨?_, ?_, ?_, ?_⟩
  · simp [List.enumFrom_length, List.countP_eq_length_filter]
  · simp [List.enumFrom_length, List.countP_eq_length_filter]
  · intro i a h
    simp only [List.getElem?_map, List.getElem?_enumFrom, Option.map_map] at h
    cases hel : ((elements.filter IOHIDElement.isAxis).take 9)[i]? with
    | none => simp [hel] at h
    | some el =>
      simp [hel, axisBinding] at h
      rw [← h]
  · intro i b h
    simp only [List.getElem?_map, List.getElem?_enumFrom, Option.map_map] at h
    cases hel : (elements.filter IOHIDElement.isButton)[i]? with
    | none => simp [hel] at h
    | some el =>
      simp [hel, buttonBinding] at h
      rw [← h]

/-! ## Detach -/

theorem HidCleanup_eq (d : HidDevice) :
    HidCleanup d = { d with disconnected := true, device_ref := 0 } := by
  unfold HidCleanup
  by_cases h : d.device_ref = 0
  · simp [h]
  · simp [h]

theorem HidCleanup_sizes (d : HidDevice) : (HidCleanup d).sizes = d.sizes := by
  rw [HidCleanup_eq]; rfl

theorem HidCleanup_consistent (d : HidDevice) (h : d.Consistent) : (HidCleanup d).Consistent := by
  rw [HidCleanup_eq]; exact h

theorem HidCleanup_closed (d : HidDevice) : (HidCleanup d).Closed := by
  rw [HidCleanup_eq]; intro _; rfl

theorem detachFirst_sizes (device : Nat) (l : List HidDevice) :
    (detachFirst device l).map HidDevice.sizes = l.map HidDevice.sizes := by
  induction l with
  | nil => rfl
  | cons d rest ih =>
    unfold detachFirst
    split_ifs
    · simp [HidCleanup_sizes]
    · simp [ih]

theorem detachFirst_mem (device : Nat) (l : List HidDevice) (d : HidDevice)
    (h : d ∈ detachFirst device l) : d ∈ l ∨ ∃ d0 ∈ l, d = HidCleanup d0 := by
  induction l with
  | nil => simp [detachFirst] at h
  | cons x rest ih =>
    unfold detachFirst at h
    split_ifs at h
    · rcases List.mem_cons.mp h with h1 | h1
      · exact Or.inr ⟨x, List.mem_cons_self _ _, h1⟩
      · exact Or.inl (List.mem_cons_of_mem _ h1)
    · rcases List.mem_cons.mp h with h1 | h1
      · exact Or.inl (h1 ▸ List.mem_cons_self _ _)
      · rcases ih h1 with h2 | ⟨d0, h2, h3⟩
        · exact Or.inl (List.mem_cons_of_mem _ h2)
        · exact Or.inr ⟨d0, List.mem_cons_of_mem _ h2, h3⟩

/-! ## Input routing -/

theorem findDevice_none (device_ref : Nat) (l : List HidDevice) (k : Nat)
    (h : ∀ d ∈ l, d.device_ref ≠ device_ref) : findDevice device_ref l k = none := by
  induction l generalizing k with
  | nil => rfl
  | cons x rest ih =>
    unfold findDevice
    rw [if_neg (h x (List.mem_cons_self _ _))]
    exact ih (k + 1) (fun d hd => h d (List.mem_cons_of_mem _ hd))

/-- What a successful `HandleAxisEvent` does to the record. -/
theorem HandleAxisEvent_ok (h : Bool) (dev : Nat) (device d1 : HidDevice) (axis_id : Nat)
    (int_value : Int) (out : List Notification)
    (hok : HandleAxisEvent h dev device axis_id int_value = .ok (d1, out)) :
    d1.device_ref = device.device_ref ∧ d1.disconnected = device.disconnected ∧
    d1.sizes = device.sizes ∧ (device.Consistent → d1.Consistent) ∧
    (∀ n ∈ out, n.dev = dev) := by
  cases hinfo : device.axis_map[axis_id]? with
  | none => simp [HandleAxisEvent, hinfo] at hok
  | some axis_info =>
    by_cases hv : axis_info.last_value = axisValue axis_info int_value
    · simp only [HandleAxisEvent, hinfo, hv, ne_eq, not_true_eq_false, if_false, Except.ok.injEq,
        Prod.mk.injEq] at hok
      obtain ⟨hd, ho⟩ := hok
      subst hd
      subst ho
      exact ⟨rfl, rfl, rfl, id, by simp⟩
    · by_cases hlen : axis_id < device.device.axes.length
      · rw [HandleAxisEvent_eq h dev device axis_id int_value axis_info hinfo hlen] at hok
        simp only [ne_eq, hv, not_false_eq_true, if_true, Except.ok.injEq, Prod.mk.injEq] at hok
        obtain ⟨hd, ho⟩ := hok
        subst hd
        refine ⟨rfl, rfl, by simp [HidDevice.sizes], ?_, ?_⟩
        · rintro ⟨c1, c2, c3, c4⟩
          refine ⟨by simpa using c1, by simpa using c2, ?_, c4⟩
          intro i a hi
          simp only [List.getElem?_set] at hi
          split_ifs at hi with h1 h2
          · simp only [Option.some.injEq] at hi
            rw [← hi]
            subst h1
            exact c3 axis_id axis_info hinfo
          · exact c3 i a hi
        · intro n hn
          cases h
          · simp only [Bool.false_eq_true, if_false] at ho
            subst ho
            simp at hn
          · simp only [if_true] at ho
            subst ho
            simp only [List.mem_singleton] at hn
            subst hn
            rfl
      · simp [HandleAxisEvent, hinfo, hv, hlen] at hok

/-- What a successful `HandleButtonEvent` does to the snapshot. -/
theorem HandleButtonEvent_ok (hdown hup : Bool) (dev : Nat) (device d1 : Device)
    (button_id : Nat) (value : Int) (out : List Notification)
    (hok : HandleButtonEvent hdown hup dev device button_id value = .ok (d1, out)) :
    d1.axes = device.axes ∧ d1.buttons.length = device.buttons.length ∧
    (∀ n ∈ out, n.dev = dev) := by
  unfold HandleButtonEvent at hok
  cases hb : device.buttons[button_id]? with
  | none => simp [hb] at hok
  | some old =>
    simp only [hb] at hok
    split_ifs at hok with hv hp hd hu
    all_goals
      simp only [Except.ok.injEq, Prod.mk.injEq] at hok
      obtain ⟨hd1, ho⟩ := hok
      subst hd1
      subst ho
      simp [Notification.dev]

/-- What a successful `HidDeviceInput` does: nothing, or it replaces the first device
with the handle of the event by a record of the same handle, flag and sizes, and
every handler call refers to that device. -/
theorem HidDeviceInput_ok (s s1 : SystemImpl) (v : HidValue) (out : List Notification)
    (hok : HidDeviceInput s (some v) = .ok (s1, out)) :
    (s1 = s ∧ out = []) ∨
    ∃ dev hd hd1, findDevice v.device_ref s.devices_ 0 = some dev ∧
      s.devices_[dev]? = some hd ∧
      s1 = { s with devices_ := s.devices_.set dev hd1 } ∧
      hd1.device_ref = hd.device_ref ∧ hd1.disconnected = hd.disconnected ∧
      hd1.sizes = hd.sizes ∧ (hd.Consistent → hd1.Consistent) ∧
      ∀ n ∈ out, n.dev = dev := by
  simp only [HidDeviceInput] at hok
  cases hfd : findDevice v.device_ref s.devices_ 0 with
  | none =>
    simp only [hfd, Except.ok.injEq, Prod.mk.injEq] at hok
    exact Or.inl ⟨hok.1.symm, hok.2.symm⟩
  | some dev =>
    simp only [hfd] at hok
    cases hget : s.devices_[dev]? with
    | none =>
      simp only [hget, Except.ok.injEq, Prod.mk.injEq] at hok
      exact Or.inl ⟨hok.1.symm, hok.2.symm⟩
    | some hd =>
      simp only [hget] at hok
      cases hfb : findButton v.cookie hd.button_map 0 with
      | some i =>
        simp only [hfb] at hok
        cases hb : HandleButtonEvent s.button_down_handler_ s.button_up_handler_ dev
            hd.device i v.int_value with
        | error e => simp [hb] at hok
        | ok r =>
          obtain ⟨d, o⟩ := r
          simp only [hb, Except.ok.injEq, Prod.mk.injEq] at hok
          obtain ⟨h1, h2⟩ := hok
          subst h2
          obtain ⟨b1, b2, b3⟩ := HandleButtonEvent_ok _ _ _ _ _ _ _ _ hb
          refine Or.inr ⟨dev, hd, { hd with device := d }, rfl, hget, h1.symm, rfl, rfl, ?_, ?_, b3⟩
          · simp [HidDevice.sizes, b1, b2]
          · rintro ⟨c1, c2, c3, c4⟩
            exact ⟨by simpa [b1] using c1, by simpa [b2] using c2, c3, c4⟩
      | none =>
        simp only [hfb] at hok
        cases hfa : findAxis hd.axis_map v.cookie hd.button_map.length 0 with
        | error e => simp [hfa] at hok
        | ok r =>
          cases r with
          | none =>
            simp only [hfa, Except.ok.injEq, Prod.mk.injEq] at hok
            exact Or.inl ⟨hok.1.symm, hok.2.symm⟩
          | some i =>
            simp only [hfa] at hok
            cases ha : HandleAxisEvent s.axis_move_handler_ dev hd i v.int_value with
            | error e => simp [ha] at hok
            | ok r =>
              obtain ⟨hd1, o⟩ := r
              simp only [ha, Except.ok.injEq, Prod.mk.injEq] at hok
              obtain ⟨h1, h2⟩ := hok
              subst h2
              obtain ⟨a1, a2, a3, a4, a5⟩ := HandleAxisEvent_ok _ _ _ _ _ _ _ ha
              exact Or.inr ⟨dev, hd, hd1, rfl, hget, h1.symm, a1, a2, a3, a4, a5⟩

/-! ## The detach sweep -/

/-- The detach loop with enough iterations left: the devices before the iterator
stay, of the others the connected ones stay in order, and the detached handler is
called once per disconnected one, in order. -/
theorem sweepLoop_eq (h : Bool) (fuel : Nat) :
    ∀ (i : Nat) (devices : List HidDevice) (out : List Notification),
      devices.length - i ≤ fuel →
      ∃ notes, sweepLoop h fuel i devices out =
          (devices.take i ++ (devices.drop i).filter (fun d => !d.disconnected), out ++ notes) ∧
        (h = false → notes = []) ∧
        (h = true → List.Forall₂ (fun n d => ∃ k, n = Notification.detached k d.device) notes
          ((devices.drop i).filter (fun d => d.disconnected))) := by
  induction fuel with
  | zero =>
    intro i devices out hf
    have hle : devices.length ≤ i := by omega
    refine ⟨[], ?_, fun _ => rfl, fun _ => ?_⟩
    · simp [sweepLoop, List.take_of_length_le hle, List.drop_eq_nil_of_le hle]
    · simp [List.drop_eq_nil_of_le hle]
  | succ fuel ih =>
    intro i devices out hf
    cases hget : devices[i]? with
    | none =>
      have hle : devices.length ≤ i := List.getElem?_eq_none_iff.mp hget
      refine ⟨[], ?_, fun _ => rfl, fun _ => ?_⟩
      · simp [sweepLoop, hget, List.take_of_length_le hle, List.drop_eq_nil_of_le hle]
      · simp [List.drop_eq_nil_of_le hle]
    | some d =>
      obtain ⟨hlt, hd⟩ := List.getElem?_eq_some.mp hget
      have hdrop : devices.drop i = d :: devices.drop (i + 1) := by
        rw [List.drop_eq_getElem_cons hlt, hd]
      by_cases hdisc : d.disconnected = true
      · have herase : devices.eraseIdx i = devices.take i ++ devices.drop (i + 1) :=
          List.eraseIdx_eq_take_drop_succ devices i
        have hlen : (devices.take i).length = i := by
          rw [List.length_take]; omega
        have htake : (devices.eraseIdx i).take i = devices.take i := by
          rw [herase, List.take_left' hlen]
        have hdrop1 : (devices.eraseIdx i).drop i = devices.drop (i + 1) := by
          rw [herase, List.drop_left' hlen]
        have hf1 : (devices.eraseIdx i).length - i ≤ fuel := by
          rw [List.length_eraseIdx, if_pos hlt]; omega
        obtain ⟨notes, e1, e2, e3⟩ := ih i (devices.eraseIdx i)
          (if h then out ++ [.detached i d.device] else out) hf1
        refine ⟨(if h then [.detached i d.device] else []) ++ notes, ?_, ?_, ?_⟩
        · simp only [sweepLoop, hget, hdisc, if_true]
          rw [e1, htake, hdrop1, hdrop]
          cases h <;> simp [hdisc]
        · intro hh
          subst hh
          simp [e2 rfl]
        · intro hh
          subst hh
          rw [hdrop, List.filter_cons_of_pos (by simpa using hdisc)]
          simp only [if_true, List.singleton_append]
          refine List.Forall₂.cons ⟨i, rfl⟩ ?_
          rw [← hdrop1]
          exact e3 rfl
      · have hf1 : devices.length - (i + 1) ≤ fuel := by omega
        obtain ⟨notes, e1, e2, e3⟩ := ih (i + 1) devices out hf1
        have htake : devices.take (i + 1) = devices.take i ++ [d] := by
          rw [List.take_succ, hget]; rfl
        refine ⟨notes, ?_, e2, ?_⟩
        · simp only [sweepLoop, hget, hdisc, if_false]
          rw [e1, htake, hdrop]
          simp [hdisc]
        · intro hh
          rw [hdrop, List.filter_cons_of_neg (by simpa using hdisc)]
          exact e3 hh

theorem sweep_devices (s : SystemImpl) :
    (sweep s).1.devices_ = s.devices_.filter (fun d => !d.disconnected) := by
  obtain ⟨notes, e1, _, _⟩ :=
    sweepLoop_eq s.detached_handler_ s.devices_.length 0 s.devices_ [] (by omega)
  simp [sweep, e1]

/-- The handler calls of the sweep: one detached call per disconnected device, in
registry order, when a handler is registered, none otherwise. -/
theorem sweep_notes (s : SystemImpl) :
    List.Forall₂ (fun n d => ∃ k, n = Notification.detached k d.device) (sweep s).2
      (if s.detached_handler_ then s.devices_.filter (fun d => d.disconnected) else []) := by
  obtain ⟨notes, e1, e2, e3⟩ :=
    sweepLoop_eq s.detached_handler_ s.devices_.length 0 s.devices_ [] (by omega)
  have hn : (sweep s).2 = notes := by simp [sweep, e1]
  rw [hn]
  cases hh : s.detached_handler_ with
  | false => simp [e2 hh]
  | true => simpa using e3 hh

theorem buildHidDevice_closed (device : Nat) (vendor_id product_id : Int)
    (device_name : String) (elements : List IOHIDElement) :
    (buildHidDevice device vendor_id product_id device_name elements).Closed := by
  rw [buildHidDevice_eq]
  intro h
  simp at h

theorem mem_of_getElem? {α : Type} (l : List α) (i : Nat) (a : α) (h : l[i]? = some a) :
    a ∈ l := by
  obtain ⟨hlt, ha⟩ := List.getElem?_eq_some.mp h
  exact ha ▸ List.getElem_mem hlt

/-- In every reachable state every device is consistent and, once disconnected, has
a cleared handle. -/
theorem reachable_inv (s : SystemImpl) (hs : Reachable s) :
    ∀ d ∈ s.devices_, d.Consistent ∧ d.Closed := by
  induction hs with
  | init s h0 => intro d hd; simp [h0] at hd
  | register s s1 _ heq ih => intro d hd; exact ih d (heq ▸ hd)
  | callback s s1 c out _ hrun ih =>
    intro d hd
    cases c with
    | HidAttached p =>
      simp only [runCallback, Except.ok.injEq] at hrun
      unfold HidDeviceAttached at hrun
      cases hv : p.vendorRef with
      | none =>
        simp only [hv, Prod.mk.injEq] at hrun
        exact ih d (hrun.1 ▸ hd)
      | some vendor =>
        simp only [hv, Prod.mk.injEq] at hrun
        rw [← hrun.1] at hd
        rcases List.mem_append.mp hd with h1 | h1
        · exact ih d h1
        · simp only [List.mem_singleton] at h1
          subst h1
          exact ⟨buildHidDevice_consistent _ _ _ _ _, buildHidDevice_closed _ _ _ _ _⟩
    | HidDetached device =>
      simp only [runCallback, Except.ok.injEq, Prod.mk.injEq] at hrun
      rw [← hrun.1] at hd
      rcases detachFirst_mem device s.devices_ d hd with h1 | ⟨d0, h1, h2⟩
      · exact ih d h1
      · subst h2
        exact ⟨HidCleanup_consistent d0 (ih d0 h1).1, HidCleanup_closed d0⟩
    | HidInput value =>
      simp only [runCallback] at hrun
      cases value with
      | none =>
        simp only [HidDeviceInput, Except.ok.injEq, Prod.mk.injEq] at hrun
        exact ih d (hrun.1 ▸ hd)
      | some v =>
        rcases HidDeviceInput_ok s s1 v out hrun with ⟨h1, _⟩ |
          ⟨dev, hd0, hd1, _, hget, h1, h2, h3, _, h5, _⟩
        · exact ih d (h1 ▸ hd)
        · subst h1
          have hmem := mem_of_getElem? _ _ _ hget
          rcases List.mem_or_eq_of_mem_set hd with h6 | h6
          · exact ih d h6
          · subst h6
            refine ⟨h5 (ih hd0 hmem).1, fun hdisc => ?_⟩
            rw [h2]
            exact (ih hd0 hmem).2 (h3 ▸ hdisc)
  | sweep s _ ih =>
    intro d hd
    rw [sweep_devices] at hd
    exact ih d (List.mem_filter.mp hd).1

/-- An event whose handle matches no device is dropped. -/
theorem HidDeviceInput_unknown_handle (s : SystemImpl) (v : HidValue)
    (h : ∀ d ∈ s.devices_, d.device_ref ≠ v.device_ref) :
    HidDeviceInput s (some v) = .ok (s, []) := by
  simp [HidDeviceInput, findDevice_none v.device_ref s.devices_ 0 h]

/-- Replacing a record by one of the same sizes keeps the sizes of the registry. -/
theorem map_sizes_set (l : List HidDevice) (dev : Nat) (hd hd1 : HidDevice)
    (hget : l[dev]? = some hd) (hs : hd1.sizes = hd.sizes) :
    (l.set dev hd1).map HidDevice.sizes = l.map HidDevice.sizes := by
  apply List.ext_getElem?
  intro j
  simp only [List.getElem?_map, List.getElem?_set]
  by_cases hj : dev = j
  · subst hj
    have hlt : dev < l.length := (List.getElem?_eq_some.mp hget).1
    simp [hlt, hget, hs]
  · simp [hj]

/-- The example state `twoPads` is reachable: two attaches and one detach. -/
theorem twoPads_reachable : Reachable twoPads :=
  Reachable.callback _ _ (.HidDetached 7) []
    (Reachable.callback _ _ (.HidAttached (padProperties 8))
      (HidDeviceAttached padSystem (padProperties 8)).2
      (Reachable.callback allHandlers padSystem (.HidAttached (padProperties 7))
        (HidDeviceAttached allHandlers (padProperties 7)).2
        (Reachable.init allHandlers rfl) rfl) rfl) rfl

/-! ## Claims -/

/-- C1: for every axis binding (in particular every one with `minimum < maximum`)
and every raw sample, the value `HandleAxisEvent` computes lies in `[-1, 1]`; the
call returns, and `device.axes` is either left as it was or has exactly that
value stored at `axis_id`. -/
theorem HandleAxisEvent_value_in_range (h : Bool) (dev : Nat) (device : HidDevice)
    (axis_id : Nat) (int_value : Int) (axis_info : HidAxisInfo)
    (hinfo : device.axis_map[axis_id]? = some axis_info)
    (hlen : axis_id < device.device.axes.length) :
    -1 ≤ axisValue axis_info int_value ∧ axisValue axis_info int_value ≤ 1 ∧
    ∃ d1 out, HandleAxisEvent h dev device axis_id int_value = .ok (d1, out) ∧
      (d1.device.axes = device.device.axes ∨
        d1.device.axes = device.device.axes.set axis_id (axisValue axis_info int_value)) ∧
      (axis_info.last_value ≠ axisValue axis_info int_value →
        d1.device.axes[axis_id]? = some (axisValue axis_info int_value)) := by
  refine ⟨(axisValue_mem _ _).1, (axisValue_mem _ _).2, ?_⟩
  rw [HandleAxisEvent_eq h dev device axis_id int_value axis_info hinfo hlen]
  by_cases hv : axis_info.last_value = axisValue axis_info int_value
  · exact ⟨device, [], by simp [hv], Or.inl rfl, fun hne => absurd hv hne⟩
  · refine ⟨{ device with
                device := { device.device with
                  axes := device.device.axes.set axis_id (axisValue axis_info int_value) }
                axis_map := device.axis_map.set axis_id
                  { axis_info with last_value := axisValue axis_info int_value } },
             if h then
               [.axis_move dev
                 { device.device with
                   axes := device.device.axes.set axis_id (axisValue axis_info int_value) }
                 axis_id (axisValue axis_info int_value) axis_info.last_value]
             else [], by simp only [ne_eq, hv, not_false_eq_true, if_true], Or.inr rfl,
             fun _ => ?_⟩
    simp [hlen]

/-- C1 at the range `[0, 255]` and the raw sample `128`. -/
theorem HandleAxisEvent_value_in_range_witness :
    -1 ≤ axisValue padAxisLow 128 ∧ axisValue padAxisLow 128 ≤ 1 ∧
    ∃ d1 out, HandleAxisEvent true 0 padLow 0 128 = .ok (d1, out) ∧
      (d1.device.axes = padLow.device.axes ∨
        d1.device.axes = padLow.device.axes.set 0 (axisValue padAxisLow 128)) ∧
      (padAxisLow.last_value ≠ axisValue padAxisLow 128 →
        d1.device.axes[0]? = some (axisValue padAxisLow 128)) :=
  HandleAxisEvent_value_in_range true 0 padLow 0 128 padAxisLow rfl (by decide)

/-- C2 (as stated) fails: with the range `[2^24, 2^24 + 1]` the raw sample
`maximum` is converted to the float `2^24`, the same float as `minimum`, and is
normalised to `-1.0`, not `1.0`. -/
theorem axisValue_maximum_counterexample :
    (16777216 : Int) < 16777217 ∧
    axisValue { axis_id := 0, cookie := 0, minimum := 16777216, maximum := 16777217 }
      16777217 = -1 := by
  refine ⟨by norm_num, ?_⟩
  have h1 : f32 (16777216 : ℚ) = 16777216 := by
    have := f32_intCast 16777216 (by norm_num)
    simpa using this
  simp only [axisValue]
  norm_num [f32_tie, h1, f32_one, f32_zero, f32_neg_one]

/-- C2 (amended): for every axis binding with `minimum < maximum` the raw sample
`minimum` is normalised to exactly `-1.0`; the raw sample `maximum` is normalised to
exactly `1.0` when `minimum` and `maximum` are of magnitude at most `2^24` (the
integers a `float` holds exactly). -/
theorem axisValue_endpoints (axis_info : HidAxisInfo)
    (h : axis_info.minimum < axis_info.maximum) :
    axisValue axis_info axis_info.minimum = -1 ∧
    (|axis_info.minimum| ≤ 2 ^ 24 → |axis_info.maximum| ≤ 2 ^ 24 →
      axisValue axis_info axis_info.maximum = 1) :=
  ⟨axisValue_minimum axis_info h, fun hmin hmax =>
    axisValue_maximum axis_info h (f32_intCast _ hmin) (f32_intCast _ hmax)⟩

/-- C2 (amended) at the range `[0, 255]`: raw `0` gives `-1.0`, raw `255` gives
`1.0`. -/
theorem axisValue_endpoints_witness :
    axisValue padAxis 0 = -1 ∧ axisValue padAxis 255 = 1 :=
  ⟨(axisValue_endpoints padAxis (by decide)).1,
   (axisValue_endpoints padAxis (by decide)).2 (by decide) (by decide)⟩

/-- C3: for every device, every axis id of that device and every raw value, two
applications of `HandleAxisEvent` in a row with the same arguments both return and
fire the axis-move handler at most once: the second one fires nothing and leaves
the whole device record (`device.axes`, `last_value`) unchanged.  When the first
one fires, the handler gets the new value and, as previous value, the
`last_value` of the binding from before the call; it does fire when a handler is
registered and the value differs from `last_value`. -/
theorem HandleAxisEvent_twice (h : Bool) (dev : Nat) (device : HidDevice)
    (axis_id : Nat) (int_value : Int) (axis_info : HidAxisInfo)
    (hinfo : device.axis_map[axis_id]? = some axis_info)
    (hlen : axis_id < device.device.axes.length) :
    ∃ d1 out1, HandleAxisEvent h dev device axis_id int_value = .ok (d1, out1) ∧
      HandleAxisEvent h dev d1 axis_id int_value = .ok (d1, []) ∧
      (out1 = [] ∨
        out1 = [.axis_move dev d1.device axis_id (axisValue axis_info int_value)
                  axis_info.last_value]) ∧
      (h = true → axis_info.last_value ≠ axisValue axis_info int_value →
        out1 = [.axis_move dev d1.device axis_id (axisValue axis_info int_value)
                  axis_info.last_value]) := by
  have hlt : axis_id < device.axis_map.length := by
    rcases List.getElem?_eq_some.mp hinfo with ⟨hh, _⟩
    exact hh
  by_cases hv : axis_info.last_value = axisValue axis_info int_value
  · refine ⟨device, [], ?_, ?_, Or.inl rfl, fun _ hne => absurd hv hne⟩
    · rw [HandleAxisEvent_eq h dev device axis_id int_value axis_info hinfo hlen]
      simp [hv]
    · rw [HandleAxisEvent_eq h dev device axis_id int_value axis_info hinfo hlen]
      simp [hv]
  · refine ⟨{ device with
                device := { device.device with
                  axes := device.device.axes.set axis_id (axisValue axis_info int_value) }
                axis_map := device.axis_map.set axis_id
                  { axis_info with last_value := axisValue axis_info int_value } },
             if h then
               [.axis_move dev
                 { device.device with
                   axes := device.device.axes.set axis_id (axisValue axis_info int_value) }
                 axis_id (axisValue axis_info int_value) axis_info.last_value]
             else [], ?_, ?_, ?_, ?_⟩
    · rw [HandleAxisEvent_eq h dev device axis_id int_value axis_info hinfo hlen]
      simp only [ne_eq, hv, not_false_eq_true, if_true]
    · rw [HandleAxisEvent_eq h dev _ axis_id int_value
        { axis_info with last_value := axisValue axis_info int_value }
        (by simp [hlt]) (by simp [hlen])]
      simp [axisValue_last_value]
    · cases h
      · exact Or.inl rfl
      · exact Or.inr rfl
    · intro hh _
      subst hh
      rfl

/-- C3 on the range `[0, 255]`: raw `255` after raw `0` fires with new value `1.0`
and previous value `-1.0`; raw `255` again fires nothing. -/
theorem HandleAxisEvent_twice_witness :
    ∃ d1, HandleAxisEvent true 0 padLow 0 255 = .ok (d1, [.axis_move 0 d1.device 0 1 (-1)]) ∧
      HandleAxisEvent true 0 d1 0 255 = .ok (d1, []) := by
  obtain ⟨d1, out1, h1, h2, _, h4⟩ :=
    HandleAxisEvent_twice true 0 padLow 0 255 padAxisLow rfl (by decide)
  have hv : axisValue padAxisLow 255 = 1 :=
    axisValue_maximum padAxisLow (by decide) (f32_intCast _ (by decide))
      (f32_intCast _ (by decide))
  have hl : padAxisLow.last_value = -1 := rfl
  rw [hv, hl] at h4
  rw [h4 rfl (by norm_num)] at h1
  exact ⟨d1, h1, h2⟩

/-- C4 fails on the code: the axis cookie loop runs while `i < button_map.size()`.
For a device with one axis (cookie `3`) and no button, the event with cookie `3`
and raw value `255` is dropped: the state is unchanged and no handler is called,
although `HandleAxisEvent` on that axis would store `1.0` and fire. -/
theorem HidDeviceInput_axis_dropped :
    stickSystem.devices_ = [stickDevice] ∧
    HidDeviceInput stickSystem (some ⟨7, 3, 255⟩) = .ok (stickSystem, []) ∧
    HandleAxisEvent true 0 stickDevice 0 255 =
      .ok ({ stickDevice with
              device := { stickDevice.device with axes := [1] }
              axis_map := [{ padAxis with last_value := 1 }] },
           [.axis_move 0 { stickDevice.device with axes := [1] } 0 1 0]) := by
  refine ⟨rfl, rfl, ?_⟩
  have hv : axisValue padAxis 255 = 1 :=
    axisValue_maximum padAxis (by decide) (f32_intCast _ (by decide))
      (f32_intCast _ (by decide))
  rw [HandleAxisEvent_eq true 0 stickDevice 0 255 padAxis rfl (by decide), hv]
  have hl : padAxis.last_value = 0 := rfl
  rw [hl, if_pos (by norm_num)]
  rfl

/-- C5 fails on the code: the axis cookie loop reads `axis_map[i]` while
`i < button_map.size()`.  For the attached pad with two buttons and one axis, an
event whose cookie `9` matches no binding reads `axis_map[1]`, past the end. -/
theorem HidDeviceInput_unknown_cookie_fault :
    padSystem.devices_.map HidDevice.sizes = [(1, 2, 1, 2)] ∧
    HidDeviceInput padSystem (some ⟨7, 9, 0⟩) = .error .out_of_range :=
  ⟨rfl, rfl⟩

/-- C7: the sweep at the end of `HidReadInputs` keeps exactly the devices whose
`disconnected` flag is false, unchanged and in their order, and changes nothing
else; when a detached handler is registered it is called exactly once for each
device whose flag is true, in registry order, with the `Device` of that device, and
no handler is called otherwise; afterwards no device in the registry is
disconnected.  `HidReadInputs` with an idle run loop is that sweep. -/
theorem sweep_spec (s : SystemImpl) :
    (sweep s).1 = { s with devices_ := s.devices_.filter (fun d => !d.disconnected) } ∧
    List.Forall₂ (fun n d => ∃ k, n = Notification.detached k d.device) (sweep s).2
      (if s.detached_handler_ then s.devices_.filter (fun d => d.disconnected) else []) ∧
    (sweep s).1.devices_.filter (fun d => d.disconnected) = [] ∧
    HidReadInputs s [] = .ok (sweep s) := by
  refine ⟨?_, sweep_notes s, ?_, rfl⟩
  · have h := sweep_devices s
    simp only [sweep] at h ⊢
    rw [h]
  · rw [sweep_devices]
    simp [List.filter_filter]

/-- C8 fails on the code: the scan skips an axis-type element only when
`axis_map.size() > 8`, so nine axis elements give nine axis bindings and nine
entries of `device.axes`.  In general at most nine are accepted, and the button
bindings are those of the button elements alone. -/
theorem nine_axes_accepted :
    (buildHidDevice 7 1118 1118 "pad" nineAxes).axis_map.length = 9 ∧
    (buildHidDevice 7 1118 1118 "pad" nineAxes).device.axes.length = 9 ∧
    ∀ (device : Nat) (vendor_id product_id : Int) (device_name : String)
      (elements : List IOHIDElement),
      (buildHidDevice device vendor_id product_id device_name elements).axis_map.length ≤ 9 ∧
      (buildHidDevice device vendor_id product_id device_name elements).button_map =
        (buildHidDevice device vendor_id product_id device_name
          (elements.filter IOHIDElement.isButton)).button_map := by
  refine ⟨by decide, by decide, fun device vendor_id product_id device_name elements => ?_⟩
  simp only [buildHidDevice_eq, List.length_map, List.enumFrom_length, List.length_take,
    List.filter_filter, Bool.and_self]
  exact ⟨min_le_left _ _, trivial⟩

/-- C10: in every state reachable from the empty registry by handler registration,
attach, detach, input and sweep steps, every device has `axes.size() ==
axis_map.size()` and `buttons.size() == button_map.size()`, and the logical ids of
its bindings are their positions.  These sizes are fixed at attach: the attached
record has one button binding and one `false` entry per button-type element, and one
axis binding and one `0.0` entry per accepted axis element (a prefix of the axis-type
elements), with ids counting from 0 in discovery order; attach appends that record
and leaves the others alone.  No input step and no detach step changes the sizes of
any device. -/
theorem sizes_fixed :
    (∀ s, Reachable s → ∀ d ∈ s.devices_, d.Consistent) ∧
    (∀ (device : Nat) (vendor_id product_id : Int) (device_name : String)
      (elements : List IOHIDElement),
      ∃ accepted, accepted <+: elements.filter IOHIDElement.isAxis ∧
        (buildHidDevice device vendor_id product_id device_name elements).button_map =
          (List.enumFrom 0 (elements.filter IOHIDElement.isButton)).map buttonBinding ∧
        (buildHidDevice device vendor_id product_id device_name elements).device.buttons =
          List.replicate (elements.countP IOHIDElement.isButton) false ∧
        (buildHidDevice device vendor_id product_id device_name elements).axis_map =
          (List.enumFrom 0 accepted).map axisBinding ∧
        (buildHidDevice device vendor_id product_id device_name elements).device.axes =
          List.replicate accepted.length 0) ∧
    (∀ (s : SystemImpl) (p : HidDeviceProperties) (vendor : Int), p.vendorRef = some vendor →
      (HidDeviceAttached s p).1.devices_ =
        s.devices_ ++
          [buildHidDevice p.device vendor vendor (p.nameRef.getD "<Unknown>") p.elements]) ∧
    (∀ s value s1 out, HidDeviceInput s value = .ok (s1, out) →
      s1.devices_.map HidDevice.sizes = s.devices_.map HidDevice.sizes) ∧
    (∀ s device,
      (HidDeviceDetached s device).devices_.map HidDevice.sizes =
        s.devices_.map HidDevice.sizes) := by
  refine ⟨fun s hs d hd => (reachable_inv s hs d hd).1, ?_, ?_, ?_, ?_⟩
  · intro device vendor_id product_id device_name elements
    refine ⟨(elements.filter IOHIDElement.isAxis).take 9, List.take_prefix _ _, ?_⟩
    rw [buildHidDevice_eq]
    simp [List.length_take, List.countP_eq_length_filter]
  · intro s p vendor hv
    unfold HidDeviceAttached
    rw [hv]
    cases p.nameRef <;> rfl
  · intro s value s1 out hok
    cases value with
    | none =>
      simp only [HidDeviceInput, Except.ok.injEq, Prod.mk.injEq] at hok
      rw [← hok.1]
    | some v =>
      rcases HidDeviceInput_ok s s1 v out hok with ⟨h1, _⟩ |
        ⟨dev, hd, hd1, _, hget, h1, _, _, h4, _, _⟩
      · rw [h1]
      · subst h1
        exact map_sizes_set _ _ _ _ hget h4
  · intro s device
    exact detachFirst_sizes device s.devices_

/-- C10 on two pads, the first one detached: both records are consistent, and
pressing a button of the second pad changes no size. -/
theorem sizes_fixed_witness :
    (∀ d ∈ twoPads.devices_, d.Consistent) ∧
    [detachedPad, pressedPad].map HidDevice.sizes = twoPads.devices_.map HidDevice.sizes :=
  ⟨sizes_fixed.1 twoPads twoPads_reachable,
   sizes_fixed.2.2.2.1 twoPads (some ⟨8, 1, 1⟩)
     { twoPads with devices_ := [detachedPad, pressedPad] }
     [.button_down 1 pressedPad.device 0] rfl⟩

end Gamepad
